import Mathlib

/-!
Shallow embedding of the AMM test-environment orchestrator
(`AMM/project/test-utils/src/setup.rs`): pool-topology construction,
exchange deployment and construction, the liquidity pipeline, and
transaction input/output assembly, together with theorems checking the
natural-language specification against this code.

External collaborators (the ledger/provider, the deployed exchange and
registry contracts, binary loading from disk) are modelled by an explicit
`Env` structure; every on-chain interaction is recorded in an explicit
call trace so ordering claims can be stated.  Machine integers are modelled
as `Nat` with explicit wrapping (`% 2^64` for `u64` values, `% 256` for the
`as u8` cast).  The one place where unsigned overflow is behaviourally
significant — `asset_ids.len() - 1` on an empty list, which panics in the
Rust code (an overflow panic in debug builds; in release builds the wrapped
bound lets the loop run and the immediately following
`.get(0).unwrap()` on the empty list panics instead) — is modelled as an
explicit `Panic.subOverflow` branch.
-/

namespace AmmSetup

/-- The value `2^64`, the bound on `u64` arithmetic. -/
def U64SIZE : Nat := 18446744073709551616

abbrev AssetId := Nat

abbrev ContractId := Nat

abbrev Address := Nat

/-- Error reported by the ledger's coin selection (spec 4.6: `InsufficientFunds`). -/
inductive ProviderError where
  | insufficientFunds
deriving DecidableEq, Repr

/-- Rust panics / propagated unwraps that the embedded code can raise.
`resourceTypeMismatch` models `panic!("Resource type does not match")`
(the spec's `UnsupportedResourceKind`); `providerErr` models `.unwrap()`
on a failed provider call; `subOverflow` models the panic raised by
`asset_ids.len() - 1` on an empty list; `unwrapNone` models `.unwrap()`
on a missing `Option` value. -/
inductive Panic where
  | subOverflow
  | unwrapNone
  | providerErr (e : ProviderError)
  | resourceTypeMismatch
deriving DecidableEq, Repr

/-- The contract binaries referenced by `paths.rs`. -/
inductive BinaryPath where
  | ammBinary
  | exchangeBinary
  | maliciousExchangeBinary
deriving DecidableEq, Repr

/-- The storage images referenced by `paths.rs`. -/
inductive StoragePath where
  | ammStorage
  | exchangeStorage
  | maliciousExchangeStorage
deriving DecidableEq, Repr

/-- One recorded interaction with the ledger or a deployed contract. -/
inductive Call where
  | deploy (binary : BinaryPath) (storage : StoragePath) (salt : List Nat)
  | construct (exchange : ContractId) (pair : AssetId × AssetId)
  | deposit (exchange : ContractId) (amount : Nat) (asset : AssetId)
  | addLiquidity (exchange : ContractId) (minLiquidity : Nat) (deadline : Nat)
  | addPool (amm : ContractId) (pair : AssetId × AssetId) (exchange : ContractId)
deriving DecidableEq, Repr

/-- Structure `ExchangeContractConfiguration` from `data_structures.rs` (fields as read
from `setup.rs`: `pair`, `malicious`, `compute_bytecode_root`, `salt`). -/
structure ExchangeContractConfiguration where
  pair : AssetId × AssetId
  malicious : Bool
  compute_bytecode_root : Bool
  salt : List Nat
deriving DecidableEq, Repr

/-- Modelled from the spec: `ExchangeContractConfiguration::new` lives in
`data_structures.rs`, which is not among the analysed sources.  Section 6 of
the spec says every field is optional with documented defaults; the defaults
used here are the non-malicious binary, no bytecode-root computation, a zero
salt and a zero pair.  Every call site in `setup.rs` relevant to the claims
passes `Some` for the fields the claims mention, so the defaults are inert. -/
def ExchangeContractConfiguration.new (pair : Option (AssetId × AssetId))
    (malicious : Option Bool) (compute_bytecode_root : Option Bool)
    (salt : Option (List Nat)) : ExchangeContractConfiguration :=
  { pair := pair.getD (0, 0)
    malicious := malicious.getD false
    compute_bytecode_root := compute_bytecode_root.getD false
    salt := salt.getD (List.replicate 32 0) }

/-- Structure `LiquidityParameters` from `data_structures.rs`. -/
structure LiquidityParameters where
  amounts : Nat × Nat
  liquidity : Nat
  deadline : Nat
deriving DecidableEq, Repr

/-- Modelled from the spec: `LiquidityParameters::new` lives in
`data_structures.rs`, which is not among the analysed sources.  Section 6 of
the spec makes `amounts`, `deadline` and `minLiquidity` optional; the call
site in `setup_exchange_contracts` passes `Some` for all three, so the zero
defaults used here are inert. -/
def LiquidityParameters.new (amounts : Option (Nat × Nat)) (deadline : Option Nat)
    (liquidity : Option Nat) : LiquidityParameters :=
  { amounts := amounts.getD (0, 0)
    liquidity := liquidity.getD 0
    deadline := deadline.getD 0 }

/-- Structure `ExchangeContract` from `data_structures.rs` (the live `instance` handle
carries no orchestration-relevant state and is omitted). -/
structure ExchangeContract where
  bytecode_root : Option ContractId
  id : ContractId
  pair : AssetId × AssetId
deriving DecidableEq, Repr

/-- Structure `AMMContract` from `data_structures.rs`: the registry's identity and its
`pools` map, modelled as an association list with `HashMap::insert`
semantics (`insertPool`). -/
structure AMMContract where
  id : ContractId
  pools : List ((AssetId × AssetId) × ExchangeContract)
deriving DecidableEq, Repr

/-- Semantics of `HashMap::insert`: replace the value at an existing key, otherwise add
a new entry. -/
def insertPool (pools : List ((AssetId × AssetId) × ExchangeContract))
    (key : AssetId × AssetId) (value : ExchangeContract) :
    List ((AssetId × AssetId) × ExchangeContract) :=
  if pools.any (fun entry => entry.1 = key) then
    pools.map (fun entry => if entry.1 = key then (key, value) else entry)
  else
    pools ++ [(key, value)]

/-- A spendable `Coin` resource returned by the ledger. -/
structure Coin where
  utxo_id : Nat
  amount : Nat
deriving DecidableEq, Repr

/-- Type `Resource` as returned by `get_spendable_resources`: a coin, or some
other resource kind (e.g. a message) that `transaction_input_coin` does not
know how to spend. -/
inductive Resource where
  | coin (c : Coin)
  | message (amount : Nat)
deriving DecidableEq, Repr

/-- Whether a resource is a coin. -/
def Resource.isCoin : Resource → Bool
  | .coin _ => true
  | .message _ => false

/-- The amount carried by a resource. -/
def Resource.amount : Resource → Nat
  | .coin c => c.amount
  | .message a => a

/-- An `Input::CoinSigned` as assembled by `transaction_input_coin`. -/
structure Input where
  utxo_id : Nat
  owner : Address
  amount : Nat
  asset_id : AssetId
  tx_pointer : Nat
  witness_index : Nat
  maturity : Nat
deriving DecidableEq, Repr

/-- Constant `Address::zeroed()`. -/
def Address.zeroed : Address := 0

/-- Constant `AssetId::default()` (the all-zero asset id). -/
def AssetId.default : AssetId := 0

/-- The only output kind this code produces: `Output::Variable` (the `to`
field is named `recipient` here because `to` is reserved in Lean). -/
inductive Output where
  | Variable (amount : Nat) (recipient : Address) (asset_id : AssetId)
deriving DecidableEq, Repr

/-- Structure `TransactionParameters` from `data_structures.rs`. -/
structure TransactionParameters where
  inputs : List Input
  outputs : List Output
deriving DecidableEq, Repr

/-- Modelled from the spec: the external collaborators of section 6 — the
ledger client (deterministic salted deployment, block height, coin
selection), disk loading of contract binaries, the bytecode-root hash, and
the deployed exchange contract's `add_liquidity` response.  `deployId`
is a pure function of (binary, storage, salt) per spec 4.2;
`addLiquidityValue` may depend on the whole interaction history recorded so
far, on the exchange called, on the minimum liquidity, the deadline and the
gas-limit override; `latestBlockHeight` is the height the provider reports
during the run. -/
structure Env where
  load : BinaryPath → List Nat
  rootFromCode : List Nat → ContractId
  deployId : BinaryPath → StoragePath → List Nat → ContractId
  latestBlockHeight : Nat
  addLiquidityValue : List Call → ContractId → Nat → Nat → Bool → Nat
  get_spendable_resources : Address → AssetId → Nat → Except ProviderError (List Resource)

/-- Modelled from the spec: `interface::exchange::deposit` (not under the
analysed sources) issues one `deposit(amount, asset)` call to the exchange. -/
def deposit (log : List Call) (exchange : ContractId) (amount : Nat) (asset : AssetId) :
    List Call :=
  log ++ [.deposit exchange amount asset]

/-- Modelled from the spec: `interface::exchange::add_liquidity` (not under
the analysed sources) issues one `add_liquidity(min_liquidity, deadline)`
call and returns the minted-liquidity value the exchange reports. -/
def add_liquidity (env : Env) (log : List Call) (exchange : ContractId)
    (min_liquidity deadline : Nat) (override_gas_limit : Bool) : Nat × List Call :=
  (env.addLiquidityValue log exchange min_liquidity deadline override_gas_limit,
   log ++ [.addLiquidity exchange min_liquidity deadline])

/-- Modelled from the spec: `interface::exchange::constructor` (not under the
analysed sources) issues the one-shot constructor call fixing the pair. -/
def constructor (log : List Call) (exchange : ContractId) (pair : AssetId × AssetId) :
    List Call :=
  log ++ [.construct exchange pair]

/-- Modelled from the spec: `interface::amm::add_pool` (not under the
analysed sources) registers (pair → exchange identity) with the registry. -/
def add_pool (log : List Call) (amm : ContractId) (pair : AssetId × AssetId)
    (exchange : ContractId) : List Call :=
  log ++ [.addPool amm pair exchange]

/-- Function `exchange_bytecode_root`: loads the legitimate exchange binary
(`EXCHANGE_CONTRACT_BINARY_PATH`) and computes `root_from_code` over it. -/
def exchange_bytecode_root (env : Env) : ContractId :=
  env.rootFromCode (env.load BinaryPath.exchangeBinary)

/-- Function `deploy_exchange`: selects the malicious or legitimate binary and storage
image according to `config.malicious`, deploys with `config.salt`, and
returns the resulting contract id. -/
def deploy_exchange (env : Env) (log : List Call)
    (config : ExchangeContractConfiguration) : ContractId × List Call :=
  let binary_path := if config.malicious then BinaryPath.maliciousExchangeBinary
    else BinaryPath.exchangeBinary
  let storage_path := if config.malicious then StoragePath.maliciousExchangeStorage
    else StoragePath.exchangeStorage
  let contract_id := env.deployId binary_path storage_path config.salt
  (contract_id, log ++ [.deploy binary_path storage_path config.salt])

/-- Function `deploy_and_construct_exchange`: deploy, call the constructor with
`config.pair`, and attach the bytecode root of the legitimate binary when
`config.compute_bytecode_root` is set. -/
def deploy_and_construct_exchange (env : Env) (log : List Call)
    (config : ExchangeContractConfiguration) : ExchangeContract × List Call :=
  let (id, log1) := deploy_exchange env log config
  let log2 := constructor log1 id config.pair
  ({ bytecode_root :=
      if config.compute_bytecode_root then some (exchange_bytecode_root env) else none,
     id := id,
     pair := config.pair }, log2)

/-- Function `deposit_and_add_liquidity_with_response`: deposit `amounts.0` of pair
asset 0, deposit `amounts.1` of pair asset 1, then call `add_liquidity`. -/
def deposit_and_add_liquidity_with_response (env : Env) (log : List Call)
    (liquidity_parameters : LiquidityParameters) (exchange : ExchangeContract)
    (override_gas_limit : Bool) : Nat × List Call :=
  let log1 := deposit log exchange.id liquidity_parameters.amounts.1 exchange.pair.1
  let log2 := deposit log1 exchange.id liquidity_parameters.amounts.2 exchange.pair.2
  add_liquidity env log2 exchange.id liquidity_parameters.liquidity
    liquidity_parameters.deadline override_gas_limit

/-- Function `deposit_and_add_liquidity`: as above, returning the `.value` of the
`add_liquidity` response. -/
def deposit_and_add_liquidity (env : Env) (log : List Call)
    (liquidity_parameters : LiquidityParameters) (exchange : ExchangeContract)
    (override_gas_limit : Bool) : Nat × List Call :=
  let (response, log1) := deposit_and_add_liquidity_with_response env log
    liquidity_parameters exchange override_gas_limit
  (response, log1)

/-- Function `setup_exchange_contract`: deploy and construct an exchange, then run the
liquidity pipeline on it (the minted amount is discarded). -/
def setup_exchange_contract (env : Env) (log : List Call)
    (exchange_config : ExchangeContractConfiguration)
    (liquidity_parameters : LiquidityParameters) : ExchangeContract × List Call :=
  let (exchange, log1) := deploy_and_construct_exchange env log exchange_config
  let (_, log2) := deposit_and_add_liquidity env log1 liquidity_parameters exchange false
  (exchange, log2)

/-- The exchange configuration built inside the `setup_exchange_contracts`
loop: `ExchangeContractConfiguration::new(Some(asset_pair), None, None,
Some([(exchange_index as u8); 32]))`.  The `as u8` cast wraps, so each of the
32 salt bytes is `exchange_index % 256`. -/
def chainConfig (asset_pair : AssetId × AssetId) (exchange_index : Nat) :
    ExchangeContractConfiguration :=
  ExchangeContractConfiguration.new (some asset_pair) none none
    (some (List.replicate 32 (exchange_index % 256)))

/-- The liquidity parameters built inside the `setup_exchange_contracts`
loop: `LiquidityParameters::new(Some((100_000, 100_000 * (exchange_index as
u64 + 1))), Some(provider.latest_block_height() + 10), Some(100_000))`,
with `u64` arithmetic wrapping modulo `2^64`. -/
def chainLiquidity (env : Env) (exchange_index : Nat) : LiquidityParameters :=
  LiquidityParameters.new (some (100000, 100000 * (exchange_index + 1) % U64SIZE))
    (some ((env.latestBlockHeight + 10) % U64SIZE)) (some 100000)

/-- The `while exchange_index < asset_ids.len() - 1` loop of
`setup_exchange_contracts`.  `asset_ids.len() - 1` is unsigned subtraction,
panicking when the list is empty; `asset_ids.get(...).unwrap()` panics when
the index is out of range (unreachable inside the guard). -/
def setupLoop (env : Env) (asset_ids : List AssetId) (amm : AMMContract)
    (log : List Call) (exchange_index : Nat) : Except Panic (AMMContract × List Call) :=
  if _h0 : asset_ids.length < 1 then .error .subOverflow
  else if _h1 : exchange_index < asset_ids.length - 1 then
    match asset_ids[exchange_index]?, asset_ids[exchange_index + 1]? with
    | some first_asset, some second_asset =>
      let asset_pair := (first_asset, second_asset)
      let (exchange, log1) := setup_exchange_contract env log
        (chainConfig asset_pair exchange_index) (chainLiquidity env exchange_index)
      let log2 := add_pool log1 amm.id asset_pair exchange.id
      setupLoop env asset_ids
        { amm with pools := insertPool amm.pools asset_pair exchange }
        log2 (exchange_index + 1)
    | _, _ => .error .unwrapNone
  else .ok (amm, log)
termination_by asset_ids.length - exchange_index
decreasing_by omega

/-- Function `setup_exchange_contracts`: run the chain-building loop from index 0,
returning the updated registry and the full interaction trace. -/
def setup_exchange_contracts (env : Env) (amm : AMMContract)
    (asset_ids : List AssetId) : Except Panic (AMMContract × List Call) :=
  setupLoop env asset_ids amm [] 0

/-- Constant `MAXIMUM_INPUT_AMOUNT`: the default selection ceiling. -/
def MAXIMUM_INPUT_AMOUNT : Nat := 1000000

/-- The body of the `map` in `transaction_input_coin`: destructure a coin
resource into an `Input::CoinSigned`, panicking on any other resource kind
(`panic!("Resource type does not match")`). -/
def input_from_resource (from_addr : Address) (asset_id : AssetId) (coin : Resource) :
    Except Panic Input :=
  match coin with
  | .coin c =>
    .ok { utxo_id := c.utxo_id
          owner := from_addr
          amount := c.amount
          asset_id := asset_id
          tx_pointer := 0
          witness_index := 0
          maturity := 0 }
  | _ => .error .resourceTypeMismatch

/-- Function `transaction_input_coin`: query `get_spendable_resources` (unwrapping the
provider's result, so a provider failure propagates as a panic) and convert
every returned resource into a signed coin input. -/
def transaction_input_coin (env : Env) (from_addr : Address) (asset_id : AssetId)
    (amount : Nat) : Except Panic (List Input) := do
  let coins ← match env.get_spendable_resources from_addr asset_id amount with
    | .ok cs => Except.ok cs
    | .error e => Except.error (Panic.providerErr e)
  coins.mapM (input_from_resource from_addr asset_id)

/-- Function `transaction_output_variable`: the constant variable-output placeholder
`Output::Variable { amount: 0, to: Address::zeroed(), asset_id:
AssetId::default() }`. -/
def transaction_output_variable : Output :=
  Output.Variable 0 Address.zeroed AssetId.default

/-- The `for (asset_index, asset) in assets.iter().enumerate()` loop of
`transaction_inputs_outputs`: for each asset, select inputs for
`amounts[asset_index]` (panicking if `amounts` is provided but too short) or
for `MAXIMUM_INPUT_AMOUNT`, extend the input list, and push one variable
output. -/
def tioLoop (env : Env) (wallet : Address) (amounts : Option (List Nat)) :
    List AssetId → Nat → List Input → List Output → Except Panic TransactionParameters
  | [], _, input_coins, output_variables =>
    .ok { inputs := input_coins, outputs := output_variables }
  | asset :: rest, asset_index, input_coins, output_variables => do
    let amount ← match amounts with
      | some given => match given[asset_index]? with
        | some a => Except.ok a
        | none => Except.error Panic.unwrapNone
      | none => Except.ok MAXIMUM_INPUT_AMOUNT
    let new_inputs ← transaction_input_coin env wallet asset amount
    tioLoop env wallet amounts rest (asset_index + 1) (input_coins ++ new_inputs)
      (output_variables ++ [transaction_output_variable])

/-- Function `transaction_inputs_outputs`: assemble inputs and variable outputs for
the given assets, starting from empty accumulators. -/
def transaction_inputs_outputs (env : Env) (wallet : Address) (assets : List AssetId)
    (amounts : Option (List Nat)) : Except Panic TransactionParameters :=
  tioLoop env wallet amounts assets 0 [] []

/-! ### Spec-side descriptions of the chain build -/

/-- The list of consecutive pairs of an asset list, in order. -/
def consecutivePairs : List AssetId → List (AssetId × AssetId)
  | a :: b :: rest => (a, b) :: consecutivePairs (b :: rest)
  | _ => []

/-- The pair `(assets[i], assets[i+1])` (with irrelevant default 0). -/
def pairAt (assets : List AssetId) (i : Nat) : AssetId × AssetId :=
  (assets.getD i 0, assets.getD (i + 1) 0)

/-- The exchange record the chain build produces for pool `i`. -/
def chainExchangeAt (env : Env) (assets : List AssetId) (i : Nat) : ExchangeContract :=
  { bytecode_root := none
    id := env.deployId BinaryPath.exchangeBinary StoragePath.exchangeStorage
      (List.replicate 32 (i % 256))
    pair := pairAt assets i }

/-- The six calls issued for pool `i` of the chain build. -/
def chainChunk (env : Env) (assets : List AssetId) (ammId : ContractId) (i : Nat) :
    List Call :=
  [.deploy BinaryPath.exchangeBinary StoragePath.exchangeStorage
     (List.replicate 32 (i % 256)),
   .construct (chainExchangeAt env assets i).id (pairAt assets i),
   .deposit (chainExchangeAt env assets i).id 100000 (pairAt assets i).1,
   .deposit (chainExchangeAt env assets i).id (100000 * (i + 1) % U64SIZE) (pairAt assets i).2,
   .addLiquidity (chainExchangeAt env assets i).id 100000
     ((env.latestBlockHeight + 10) % U64SIZE),
   .addPool ammId (pairAt assets i) (chainExchangeAt env assets i).id]

/-- The registry state after `k` successful loop iterations starting at
index `i`. -/
def chainResultAmm (env : Env) (assets : List AssetId) : AMMContract → Nat → Nat → AMMContract
  | amm, _, 0 => amm
  | amm, i, Nat.succ k =>
    chainResultAmm env assets
      { amm with pools := insertPool amm.pools (pairAt assets i) (chainExchangeAt env assets i) }
      (i + 1) k

/-- The call trace of `k` successful loop iterations starting at index `i`. -/
def chainLog (env : Env) (assets : List AssetId) (ammId : ContractId) : Nat → Nat → List Call
  | _, 0 => []
  | i, Nat.succ k => chainChunk env assets ammId i ++ chainLog env assets ammId (i + 1) k

/-- The pairs passed to `add_pool`, in trace order. -/
def addPoolPairs (log : List Call) : List (AssetId × AssetId) :=
  log.filterMap fun c => match c with
    | .addPool _ pair _ => some pair
    | _ => none

/-- The salts of the exchange deployments, in trace order. -/
def deployedSalts (log : List Call) : List (List Nat) :=
  log.filterMap fun c => match c with
    | .deploy _ _ salt => some salt
    | _ => none

/-- The (amount, asset) arguments of the deposits, in trace order. -/
def depositCalls (log : List Call) : List (Nat × AssetId) :=
  log.filterMap fun c => match c with
    | .deposit _ amount asset => some (amount, asset)
    | _ => none

/-- The (minimum-liquidity, deadline) arguments of the `add_liquidity`
calls, in trace order. -/
def liquidityCalls (log : List Call) : List (Nat × Nat) :=
  log.filterMap fun c => match c with
    | .addLiquidity _ minLiquidity deadline => some (minLiquidity, deadline)
    | _ => none

/-! ### Spec-side descriptions of transaction assembly -/

/-- The amount requested from the selector for asset index `i`:
`amounts[i]` when `amounts` is provided, else `MAXIMUM_INPUT_AMOUNT`. -/
def requestedAmount (amounts : Option (List Nat)) (i : Nat) : Nat :=
  match amounts with
  | some given => given.getD i 0
  | none => MAXIMUM_INPUT_AMOUNT

/-- Total amount carried by a resource selection. -/
def resourceSum (res : List Resource) : Nat :=
  (res.map Resource.amount).sum

/-- Total amount of the inputs whose `asset_id` is `asset`. -/
def inputAmountFor (inputs : List Input) (asset : AssetId) : Nat :=
  ((inputs.filter fun inp => inp.asset_id == asset).map Input.amount).sum

/-- The ledger's selection contract from spec 4.6: every successful
selection for `amount` carries resources summing to at least `amount`. -/
def SelectorConforms (env : Env) (wallet : Address) : Prop :=
  ∀ asset amount res, env.get_spendable_resources wallet asset amount = .ok res →
    amount ≤ resourceSum res

/-! ### Concrete environments for witnesses and counterexamples -/

/-- A concrete, fully computable environment: distinct binaries get distinct
roots, deployment ids depend on binary and salt, the provider returns one
exact coin per request. -/
def env0 : Env :=
  { load := fun b => match b with
      | .ammBinary => [2]
      | .exchangeBinary => [0]
      | .maliciousExchangeBinary => [1]
    rootFromCode := fun code => code.sum + 100
    deployId := fun b _ salt => salt.headD 0 * 4 + (match b with
      | .ammBinary => 0
      | .exchangeBinary => 1
      | .maliciousExchangeBinary => 2)
    latestBlockHeight := 5
    addLiquidityValue := fun log ex minLiquidity deadline _ =>
      log.length + ex + minLiquidity + deadline
    get_spendable_resources := fun _ asset amount => .ok [.coin ⟨asset, amount⟩] }

/-- A registry with no pools yet. -/
def amm0 : AMMContract := { id := 99, pools := [] }

/-- Like `env0`, but the wallet has no funds: every selection fails with
`InsufficientFunds`. -/
def env1 : Env :=
  { env0 with get_spendable_resources := fun _ _ _ => .error .insufficientFunds }

/-- Like `env0`, but the ledger returns a non-coin resource kind. -/
def env2 : Env :=
  { env0 with get_spendable_resources := fun _ _ _ => .ok [.message 5] }

/-- Like `env0`, but the ledger answers a zero-amount request with the empty
(sum-conforming) selection. -/
def env3 : Env :=
  { env0 with get_spendable_resources :=
      fun _ _ amount => .ok (if amount = 0 then [] else [.coin ⟨0, amount⟩]) }

/-- A malicious exchange configuration that also asks for the bytecode
root. -/
def configMal : ExchangeContractConfiguration :=
  ExchangeContractConfiguration.new (some (0, 1)) (some true) (some true)
    (some (List.replicate 32 0))

end AmmSetup

deriving instance DecidableEq for Except

namespace AmmSetup

/-! ### Helper lemmas about the chain build -/

lemma insertPool_of_not_mem (pools : List ((AssetId × AssetId) × ExchangeContract))
    (key : AssetId × AssetId) (value : ExchangeContract)
    (h : key ∉ pools.map Prod.fst) :
    insertPool pools key value = pools ++ [(key, value)] := by
  have hany : pools.any (fun entry => entry.1 = key) = false := by
    rw [List.any_eq_false]
    intro e he
    simp only [decide_eq_true_eq]
    exact fun hek => h (hek ▸ List.mem_map_of_mem Prod.fst he)
  simp [insertPool, hany]

lemma chainLiquidity_eq (env : Env) (i : Nat) :
    chainLiquidity env i =
      { amounts := (100000, 100000 * (i + 1) % U64SIZE),
        liquidity := 100000,
        deadline := (env.latestBlockHeight + 10) % U64SIZE } := rfl

lemma setup_exchange_contract_chain (env : Env) (log : List Call)
    (pair : AssetId × AssetId) (i : Nat) (lp : LiquidityParameters) :
    setup_exchange_contract env log (chainConfig pair i) lp =
      ({ bytecode_root := none,
         id := env.deployId BinaryPath.exchangeBinary StoragePath.exchangeStorage
           (List.replicate 32 (i % 256)),
         pair := pair },
       log ++
        [Call.deploy BinaryPath.exchangeBinary StoragePath.exchangeStorage
           (List.replicate 32 (i % 256)),
         Call.construct (env.deployId BinaryPath.exchangeBinary StoragePath.exchangeStorage
           (List.replicate 32 (i % 256))) pair,
         Call.deposit (env.deployId BinaryPath.exchangeBinary StoragePath.exchangeStorage
           (List.replicate 32 (i % 256))) lp.amounts.1 pair.1,
         Call.deposit (env.deployId BinaryPath.exchangeBinary StoragePath.exchangeStorage
           (List.replicate 32 (i % 256))) lp.amounts.2 pair.2,
         Call.addLiquidity (env.deployId BinaryPath.exchangeBinary StoragePath.exchangeStorage
           (List.replicate 32 (i % 256))) lp.liquidity lp.deadline]) := by
  simp [setup_exchange_contract, deploy_and_construct_exchange, deploy_exchange,
    constructor, deposit, add_liquidity, deposit_and_add_liquidity,
    deposit_and_add_liquidity_with_response, chainConfig,
    ExchangeContractConfiguration.new]

lemma chainResultAmm_id (env : Env) (assets : List AssetId) :
    ∀ (k i : Nat) (amm : AMMContract), (chainResultAmm env assets amm i k).id = amm.id := by
  intro k
  induction k with
  | zero => intro i amm; rfl
  | succ k ih => intro i amm; exact ih (i + 1) _

lemma setupLoop_ok (env : Env) (assets : List AssetId) :
    ∀ (k i : Nat), i + k = assets.length - 1 → 1 ≤ assets.length →
      ∀ (amm : AMMContract) (log : List Call),
        setupLoop env assets amm log i =
          .ok (chainResultAmm env assets amm i k,
               log ++ chainLog env assets amm.id i k) := by
  intro k
  induction k with
  | zero =>
    intro i hik hn amm log
    rw [setupLoop]
    rw [dif_neg (by omega : ¬ assets.length < 1), dif_neg (by omega : ¬ i < assets.length - 1)]
    simp [chainResultAmm, chainLog]
  | succ k ih =>
    intro i hik hn amm log
    have hi1 : i < assets.length := by omega
    have hi2 : i + 1 < assets.length := by omega
    have hpair1 : assets.getD i 0 = assets[i] := by
      simp [List.getD, List.getElem?_eq_getElem hi1]
    have hpair2 : assets.getD (i + 1) 0 = assets[i + 1] := by
      simp [List.getD, List.getElem?_eq_getElem hi2]
    rw [setupLoop]
    rw [dif_neg (by omega : ¬ assets.length < 1), dif_pos (by omega : i < assets.length - 1)]
    simp only [List.getElem?_eq_getElem hi1, List.getElem?_eq_getElem hi2,
      chainLiquidity_eq, setup_exchange_contract_chain, add_pool]
    rw [ih (i + 1) (by omega) hn]
    simp only [chainResultAmm, chainLog, chainChunk, chainExchangeAt, pairAt,
      hpair1, hpair2, List.append_assoc, List.cons_append, List.nil_append]

lemma setup_exchange_contracts_ok (env : Env) (amm : AMMContract) (assets : List AssetId)
    (hn : 1 ≤ assets.length) :
    setup_exchange_contracts env amm assets =
      .ok (chainResultAmm env assets amm 0 (assets.length - 1),
           chainLog env assets amm.id 0 (assets.length - 1)) := by
  have h := setupLoop_ok env assets (assets.length - 1) 0 (by omega) hn amm []
  simpa [setup_exchange_contracts] using h

lemma consecutivePairs_length : ∀ (assets : List AssetId),
    (consecutivePairs assets).length = assets.length - 1 := by
  intro assets
  induction assets with
  | nil => rfl
  | cons a rest ih =>
    cases rest with
    | nil => rfl
    | cons b rest2 =>
      simp only [consecutivePairs, List.length_cons] at ih ⊢
      omega

lemma consecutivePairs_getElem? : ∀ (assets : List AssetId) (j : Nat),
    (consecutivePairs assets)[j]? =
      if j + 1 < assets.length then some (pairAt assets j) else none := by
  intro assets
  induction assets with
  | nil => intro j; simp [consecutivePairs]
  | cons a rest ih =>
    intro j
    cases rest with
    | nil => simp [consecutivePairs]
    | cons b rest2 =>
      cases j with
      | zero => simp [consecutivePairs, pairAt]
      | succ j =>
        simp only [consecutivePairs, List.getElem?_cons_succ, ih j, pairAt,
          List.getD_cons_succ, List.length_cons]
        by_cases h : j + 1 < rest2.length + 1
        · rw [if_pos h, if_pos (by omega)]
        · rw [if_neg h, if_neg (by omega)]

lemma consecutivePairs_eq_map (assets : List AssetId) :
    consecutivePairs assets = (List.range' 0 (assets.length - 1)).map (pairAt assets) := by
  apply List.ext_getElem?
  intro j
  rw [consecutivePairs_getElem?]
  rcases Nat.lt_or_ge j (assets.length - 1) with h | h
  · rw [List.getElem?_map, List.getElem?_range' _ _ h, if_pos (by omega)]
    norm_num
  · rw [List.getElem?_eq_none (by simpa using h), if_neg (by omega)]

lemma addPoolPairs_chainLog (env : Env) (assets : List AssetId) (ammId : ContractId) :
    ∀ (k i : Nat), addPoolPairs (chainLog env assets ammId i k) =
      (List.range' i k).map (pairAt assets) := by
  intro k
  induction k with
  | zero => intro i; simp [chainLog, addPoolPairs]
  | succ k ih =>
    intro i
    simp only [chainLog, addPoolPairs, List.filterMap_append] at ih ⊢
    rw [List.range'_succ, List.map_cons, ← ih (i + 1)]
    simp [chainChunk]

lemma deployedSalts_chainLog (env : Env) (assets : List AssetId) (ammId : ContractId) :
    ∀ (k i : Nat), deployedSalts (chainLog env assets ammId i k) =
      (List.range' i k).map (fun j => List.replicate 32 (j % 256)) := by
  intro k
  induction k with
  | zero => intro i; simp [chainLog, deployedSalts]
  | succ k ih =>
    intro i
    simp only [chainLog, deployedSalts, List.filterMap_append] at ih ⊢
    rw [List.range'_succ, List.map_cons, ← ih (i + 1)]
    simp [chainChunk]

lemma liquidityCalls_chainLog (env : Env) (assets : List AssetId) (ammId : ContractId) :
    ∀ (k i : Nat), liquidityCalls (chainLog env assets ammId i k) =
      List.replicate k (100000, (env.latestBlockHeight + 10) % U64SIZE) := by
  intro k
  induction k with
  | zero => intro i; simp [chainLog, liquidityCalls]
  | succ k ih =>
    intro i
    simp only [chainLog, liquidityCalls, List.filterMap_append] at ih ⊢
    rw [List.replicate_succ, ← ih (i + 1)]
    simp [chainChunk]

lemma depositCalls_chainLog (env : Env) (assets : List AssetId) (ammId : ContractId) :
    ∀ (k i : Nat), depositCalls (chainLog env assets ammId i k) =
      ((List.range' i k).map (fun j =>
        [(100000, (pairAt assets j).1),
         (100000 * (j + 1) % U64SIZE, (pairAt assets j).2)])).flatten := by
  intro k
  induction k with
  | zero => intro i; simp [chainLog, depositCalls]
  | succ k ih =>
    intro i
    simp only [chainLog, depositCalls, List.filterMap_append] at ih ⊢
    rw [List.range'_succ, List.map_cons, List.flatten_cons, ← ih (i + 1)]
    simp [chainChunk]

lemma chainResultAmm_pools (env : Env) (assets : List AssetId) :
    ∀ (k i : Nat) (amm : AMMContract),
      (((List.range' i k).map (pairAt assets)).Nodup) →
      (∀ j ∈ List.range' i k, pairAt assets j ∉ amm.pools.map Prod.fst) →
      (chainResultAmm env assets amm i k).pools =
        amm.pools ++
          (List.range' i k).map (fun j => (pairAt assets j, chainExchangeAt env assets j)) := by
  intro k
  induction k with
  | zero => intro i amm _ _; simp [chainResultAmm]
  | succ k ih =>
    intro i amm hnodup hdisj
    have hmem : i ∈ List.range' i (k + 1) := by
      rw [List.range'_succ]; exact List.mem_cons_self _ _
    have hkey : pairAt assets i ∉ amm.pools.map Prod.fst := hdisj i hmem
    have hins : insertPool amm.pools (pairAt assets i) (chainExchangeAt env assets i) =
        amm.pools ++ [(pairAt assets i, chainExchangeAt env assets i)] :=
      insertPool_of_not_mem _ _ _ hkey
    rw [List.range'_succ, List.map_cons] at hnodup
    have hhead : pairAt assets i ∉ (List.range' (i + 1) k).map (pairAt assets) :=
      (List.nodup_cons.mp hnodup).1
    have htail : ((List.range' (i + 1) k).map (pairAt assets)).Nodup :=
      (List.nodup_cons.mp hnodup).2
    have step : chainResultAmm env assets amm i (k + 1) =
        chainResultAmm env assets
          { amm with pools := insertPool amm.pools (pairAt assets i) (chainExchangeAt env assets i) }
          (i + 1) k := rfl
    rw [step, ih (i + 1) _ htail ?disj]
    case disj =>
      intro j hj
      simp only [hins, List.map_append, List.mem_append, List.map_cons, List.map_nil]
      rintro (hmem1 | hmem2)
      · exact hdisj j (by rw [List.range'_succ]; exact List.mem_cons_of_mem _ hj) hmem1
      · have : pairAt assets j = pairAt assets i := by simpa using hmem2
        exact hhead (this ▸ List.mem_map_of_mem (pairAt assets) hj)
    rw [hins, List.range'_succ, List.map_cons]
    simp [List.append_assoc]

/-! ### Claim C1 -/

/-- C1 (amended): for a registry whose pools map starts empty and a nonempty
asset list whose consecutive pairs are pairwise distinct,
`setup_exchange_contracts` deploys exactly `n-1` exchange contracts,
registers each consecutive pair `(assets[i], assets[i+1])` via `add_pool`,
in order, and leaves the pools map with exactly `n-1` entries whose keys
are, in order, exactly the consecutive pairs.  (Over arbitrary asset lists
the claim fails: a repeated consecutive pair collapses to a single map
entry — see the counterexample.) -/
theorem setup_exchange_contracts_chain_topology (env : Env) (amm : AMMContract)
    (assets : List AssetId) (hn : 1 ≤ assets.length) (hpools : amm.pools = [])
    (hnodup : (consecutivePairs assets).Nodup) :
    ∃ amm' log, setup_exchange_contracts env amm assets = .ok (amm', log) ∧
      amm'.pools.map Prod.fst = consecutivePairs assets ∧
      amm'.pools.length = assets.length - 1 ∧
      addPoolPairs log = consecutivePairs assets ∧
      (deployedSalts log).length = assets.length - 1 := by
  have hnodup' : (((List.range' 0 (assets.length - 1)).map (pairAt assets))).Nodup := by
    rw [← consecutivePairs_eq_map]; exact hnodup
  have hdisj : ∀ j ∈ List.range' 0 (assets.length - 1),
      pairAt assets j ∉ amm.pools.map Prod.fst := by
    intro j _; simp [hpools]
  have hpoolseq := chainResultAmm_pools env assets (assets.length - 1) 0 amm hnodup' hdisj
  refine ⟨_, _, setup_exchange_contracts_ok env amm assets hn, ?_, ?_, ?_, ?_⟩
  · rw [hpoolseq, hpools, List.nil_append, List.map_map]
    rw [consecutivePairs_eq_map]
    rfl
  · rw [hpoolseq, hpools, List.nil_append, List.length_map, List.length_range']
  · rw [addPoolPairs_chainLog, ← consecutivePairs_eq_map]
  · rw [deployedSalts_chainLog, List.length_map, List.length_range']

/-- C1 witness: a concrete three-asset chain satisfying all hypotheses. -/
theorem setup_exchange_contracts_chain_topology_witness :
    1 ≤ ([5, 6, 7] : List AssetId).length ∧ amm0.pools = [] ∧
    (consecutivePairs [5, 6, 7]).Nodup ∧
    (∃ amm' log, setup_exchange_contracts env0 amm0 [5, 6, 7] = .ok (amm', log) ∧
      amm'.pools.map Prod.fst = consecutivePairs [5, 6, 7] ∧
      amm'.pools.length = ([5, 6, 7] : List AssetId).length - 1 ∧
      addPoolPairs log = consecutivePairs [5, 6, 7] ∧
      (deployedSalts log).length = ([5, 6, 7] : List AssetId).length - 1) :=
  ⟨by decide, by decide, by decide,
   setup_exchange_contracts_chain_topology env0 amm0 [5, 6, 7]
     (by decide) (by decide) (by decide)⟩

set_option maxRecDepth 4000 in
/-- C1 counterexample: with assets `[0, 1, 0, 1]` (n = 4) the pair `(0, 1)`
occurs twice among the three consecutive pairs; three `add_pool` calls are
issued, but the registry's pools map ends with 2 entries, not `n - 1 = 3`,
because the second `(0, 1)` insert overwrites the first. -/
theorem setup_exchange_contracts_duplicate_pair_collapses :
    (setup_exchange_contracts env0 amm0 [0, 1, 0, 1]).map
        (fun r => (r.1.pools.length, (addPoolPairs r.2).length)) = .ok (2, 3) ∧
    ([0, 1, 0, 1] : List AssetId).length - 1 = 3 := by
  constructor
  · rw [setup_exchange_contracts_ok env0 amm0 [0, 1, 0, 1] (by decide)]
    decide
  · decide

/-! ### Claim C3 -/

/-- C3 (amended): for every chain build over `n` assets, pool `i`
(for each `i < n - 1`) is provisioned with salt equal to the 32-byte array
all of whose bytes are `i % 256` — equal to `i` only while `i < 256` —
is seeded with deposit amounts exactly `(100000, 100000 * (i + 1))` in pair
order, with a deadline equal to the provider's latest block height plus 10,
and with minimum liquidity `100000`, the smaller deposit amount. -/
theorem setup_exchange_contracts_pool_parameters (env : Env) (amm : AMMContract)
    (assets : List AssetId) (hn : 1 ≤ assets.length)
    (hsmall : 100000 * assets.length < U64SIZE)
    (hheight : env.latestBlockHeight + 10 < U64SIZE) :
    ∃ amm' log, setup_exchange_contracts env amm assets = .ok (amm', log) ∧
      deployedSalts log =
        (List.range' 0 (assets.length - 1)).map (fun i => List.replicate 32 (i % 256)) ∧
      depositCalls log =
        ((List.range' 0 (assets.length - 1)).map (fun i =>
          [(100000, (pairAt assets i).1),
           (100000 * (i + 1), (pairAt assets i).2)])).flatten ∧
      liquidityCalls log =
        List.replicate (assets.length - 1) (100000, env.latestBlockHeight + 10) := by
  refine ⟨_, _, setup_exchange_contracts_ok env amm assets hn, ?_, ?_, ?_⟩
  · exact deployedSalts_chainLog env assets amm.id _ 0
  · rw [depositCalls_chainLog]
    refine congrArg List.flatten (List.map_congr_left ?_)
    intro j hj
    have hjlt : j < assets.length - 1 := by
      have := List.mem_range'_1.mp hj
      omega
    have hmod : 100000 * (j + 1) % U64SIZE = 100000 * (j + 1) := by
      apply Nat.mod_eq_of_lt
      calc 100000 * (j + 1) ≤ 100000 * assets.length :=
            Nat.mul_le_mul_left _ (by omega)
        _ < U64SIZE := hsmall
    rw [hmod]
  · rw [liquidityCalls_chainLog, Nat.mod_eq_of_lt hheight]

/-- C3 witness: a concrete three-asset chain satisfying all hypotheses. -/
theorem setup_exchange_contracts_pool_parameters_witness :
    1 ≤ ([5, 6, 7] : List AssetId).length ∧
    100000 * ([5, 6, 7] : List AssetId).length < U64SIZE ∧
    env0.latestBlockHeight + 10 < U64SIZE ∧
    (∃ amm' log, setup_exchange_contracts env0 amm0 [5, 6, 7] = .ok (amm', log) ∧
      deployedSalts log =
        (List.range' 0 (([5, 6, 7] : List AssetId).length - 1)).map
          (fun i => List.replicate 32 (i % 256)) ∧
      depositCalls log =
        ((List.range' 0 (([5, 6, 7] : List AssetId).length - 1)).map (fun i =>
          [(100000, (pairAt [5, 6, 7] i).1),
           (100000 * (i + 1), (pairAt [5, 6, 7] i).2)])).flatten ∧
      liquidityCalls log =
        List.replicate (([5, 6, 7] : List AssetId).length - 1)
          (100000, env0.latestBlockHeight + 10)) :=
  ⟨by decide, by decide, by decide,
   setup_exchange_contracts_pool_parameters env0 amm0 [5, 6, 7]
     (by decide) (by decide) (by decide)⟩

set_option maxRecDepth 100000 in
/-- C3 counterexample: in a chain over 258 assets, pool 256 is provisioned
with the same salt as pool 0 (every byte is `256 % 256 = 0`), so the salt of
pool `i` is not `i`: it cannot distinguish pool 256 from pool 0. -/
theorem setup_exchange_contracts_salt_reuse_at_256 :
    (setup_exchange_contracts env0 amm0 (List.range 258)).map
        (fun r => ((deployedSalts r.2).getD 256 [], (deployedSalts r.2).getD 0 [])) =
      .ok (List.replicate 32 0, List.replicate 32 0) ∧ (256 : Nat) ≠ 0 := by
  constructor
  · rw [setup_exchange_contracts_ok env0 amm0 (List.range 258) (by decide)]
    decide
  · decide

/-! ### Claim C8 -/

/-- C8: called with an empty asset list, `setup_exchange_contracts` panics —
the unsigned loop bound `asset_ids.len() - 1` underflows — while with a
single-element asset list it terminates normally, issues no calls at all,
and leaves the registry (in particular its pools map) unchanged. -/
theorem setup_exchange_contracts_short_lists (env : Env) (amm : AMMContract)
    (a : AssetId) :
    setup_exchange_contracts env amm [] = .error Panic.subOverflow ∧
    setup_exchange_contracts env amm [a] = .ok (amm, []) := by
  constructor
  · rw [setup_exchange_contracts, setupLoop]
    simp
  · rw [setup_exchange_contracts, setupLoop]
    simp

/-! ### Claim C9 -/

/-- C9: the salt used for pool `i` of a chain build (`chainConfig`, the
configuration literally constructed by the `setup_exchange_contracts` loop)
is the 32-byte array whose bytes all equal `i` truncated to 8 bits
(`i % 256`); salts of distinct indices below 256 are distinct, and index
256 gets exactly the salt of index 0 — so a chain over more than 257 assets
(whose last pool index is at least 256) reuses a salt. -/
theorem chainConfig_salt_truncation (p q : AssetId × AssetId) (i j : Nat)
    (hi : i < 256) (hj : j < 256) (hij : i ≠ j) :
    (chainConfig p i).salt = List.replicate 32 (i % 256) ∧
    (chainConfig p i).salt ≠ (chainConfig q j).salt ∧
    (chainConfig p 256).salt = (chainConfig q 0).salt := by
  refine ⟨rfl, ?_, rfl⟩
  intro h
  apply hij
  have hhead := congrArg (fun l => l.headD 0) h
  simp only [chainConfig, ExchangeContractConfiguration.new, Option.getD_some,
    List.replicate, List.headD_cons] at hhead
  rwa [Nat.mod_eq_of_lt hi, Nat.mod_eq_of_lt hj] at hhead

/-- C9 witness: indices 0 and 1 with concrete pairs. -/
theorem chainConfig_salt_truncation_witness :
    (0 : Nat) < 256 ∧ (1 : Nat) < 256 ∧ (0 : Nat) ≠ 1 ∧
    ((chainConfig (0, 1) 0).salt = List.replicate 32 (0 % 256) ∧
     (chainConfig (0, 1) 0).salt ≠ (chainConfig (2, 3) 1).salt ∧
     (chainConfig (0, 1) 256).salt = (chainConfig (2, 3) 0).salt) :=
  ⟨by decide, by decide, by decide,
   chainConfig_salt_truncation (0, 1) (2, 3) 0 1 (by decide) (by decide) (by decide)⟩

/-! ### Claim C2 -/

/-- C2 (amended): whenever `compute_bytecode_root` is set, the bytecode root
attached to the resulting `ExchangeContract` is computed over the legitimate
exchange binary only (`EXCHANGE_CONTRACT_BINARY_PATH`) — including when
`malicious = true`.  So a malicious configuration that asks for the root
carries exactly the legitimate binary's bytecode root, and only a
configuration with `compute_bytecode_root = false` carries none. -/
theorem deploy_and_construct_root_from_legitimate_binary (env : Env)
    (log : List Call) (config : ExchangeContractConfiguration) :
    (deploy_and_construct_exchange env log config).1.bytecode_root =
      (if config.compute_bytecode_root then
        some (env.rootFromCode (env.load BinaryPath.exchangeBinary)) else none) := by
  simp [deploy_and_construct_exchange, deploy_exchange, constructor,
    exchange_bytecode_root]

/-- C2 counterexample: `configMal` is malicious and asks for the root; the
resulting exchange carries precisely the legitimate binary's bytecode root
(`exchange_bytecode_root`), which in `env0` differs from the malicious
binary's root — contradicting "the resulting ExchangeContract never carries
the legitimate binary's bytecode root". -/
theorem malicious_config_carries_legitimate_root :
    configMal.malicious = true ∧
    (deploy_and_construct_exchange env0 [] configMal).1.bytecode_root =
      some (exchange_bytecode_root env0) ∧
    exchange_bytecode_root env0 ≠
      env0.rootFromCode (env0.load BinaryPath.maliciousExchangeBinary) := by
  refine ⟨rfl, by decide, by decide⟩

/-! ### Claim C5 -/

/-- C5: `deposit_and_add_liquidity` issues exactly three calls, in strict
order — deposit of `amounts.0` for pair asset 0, then deposit of `amounts.1`
for pair asset 1, then `add_liquidity` with the given minimum liquidity and
deadline — and returns exactly the liquidity-token amount that this
`add_liquidity` call (issued after the two deposits) reports as minted. -/
theorem deposit_and_add_liquidity_sequence (env : Env) (log : List Call)
    (lp : LiquidityParameters) (exchange : ExchangeContract) (ogl : Bool) :
    deposit_and_add_liquidity env log lp exchange ogl =
      ((add_liquidity env
          (log ++ [Call.deposit exchange.id lp.amounts.1 exchange.pair.1,
                   Call.deposit exchange.id lp.amounts.2 exchange.pair.2])
          exchange.id lp.liquidity lp.deadline ogl).1,
       log ++ [Call.deposit exchange.id lp.amounts.1 exchange.pair.1,
               Call.deposit exchange.id lp.amounts.2 exchange.pair.2,
               Call.addLiquidity exchange.id lp.liquidity lp.deadline]) := by
  simp [deposit_and_add_liquidity, deposit_and_add_liquidity_with_response,
    deposit, add_liquidity]

/-! ### Helper lemmas about transaction assembly -/

lemma okBind {α β : Type} (a : α) (f : α → Except Panic β) :
    (Except.ok a >>= f) = f a := rfl

lemma errorBind {α β : Type} (e : Panic) (f : α → Except Panic β) :
    ((Except.error e : Except Panic α) >>= f) = Except.error e := rfl

lemma mapM_input_nonCoin (from_addr : Address) (asset_id : AssetId) :
    ∀ (res : List Resource), (∃ r ∈ res, r.isCoin = false) →
      res.mapM (input_from_resource from_addr asset_id) =
        .error Panic.resourceTypeMismatch := by
  intro res
  induction res with
  | nil => rintro ⟨r, hr, _⟩; simp at hr
  | cons a rest ih =>
    rintro ⟨r, hr, hnc⟩
    rw [List.mapM_cons]
    cases a with
    | message m => rfl
    | coin c =>
      have hr' : r ∈ rest := by
        rcases List.mem_cons.mp hr with h | h
        · subst h; simp [Resource.isCoin] at hnc
        · exact h
      rw [show input_from_resource from_addr asset_id (.coin c) =
        .ok { utxo_id := c.utxo_id, owner := from_addr, amount := c.amount,
              asset_id := asset_id, tx_pointer := 0, witness_index := 0,
              maturity := 0 } from rfl, okBind, ih ⟨r, hr', hnc⟩]
      rfl

lemma mapM_input_allCoins (from_addr : Address) (asset_id : AssetId) :
    ∀ (res : List Resource), (∀ r ∈ res, r.isCoin = true) →
      ∃ l, res.mapM (input_from_resource from_addr asset_id) = .ok l := by
  intro res
  induction res with
  | nil => intro _; exact ⟨[], rfl⟩
  | cons a rest ih =>
    intro hall
    obtain ⟨l, hl⟩ := ih (fun r hr => hall r (List.mem_cons_of_mem _ hr))
    cases a with
    | message m =>
      have := hall (.message m) (List.mem_cons_self _ _)
      simp [Resource.isCoin] at this
    | coin c =>
      refine ⟨{ utxo_id := c.utxo_id, owner := from_addr, amount := c.amount,
                asset_id := asset_id, tx_pointer := 0, witness_index := 0,
                maturity := 0 } :: l, ?_⟩
      rw [List.mapM_cons, show input_from_resource from_addr asset_id (.coin c) =
        .ok { utxo_id := c.utxo_id, owner := from_addr, amount := c.amount,
              asset_id := asset_id, tx_pointer := 0, witness_index := 0,
              maturity := 0 } from rfl, okBind, hl]
      rfl

lemma mapM_input_ok (from_addr : Address) (asset_id : AssetId) :
    ∀ (res : List Resource) (l : List Input),
      res.mapM (input_from_resource from_addr asset_id) = .ok l →
      l.map Input.amount = res.map Resource.amount ∧
      (∀ x ∈ l, x.asset_id = asset_id) ∧ l.length = res.length := by
  intro res
  induction res with
  | nil =>
    intro l h
    rw [List.mapM_nil] at h
    have h3 := Except.ok.inj h
    subst h3
    simp
  | cons a rest ih =>
    intro l h
    rw [List.mapM_cons] at h
    cases a with
    | message m =>
      rw [show input_from_resource from_addr asset_id (.message m) =
        .error Panic.resourceTypeMismatch from rfl, errorBind] at h
      exact absurd h (by simp)
    | coin c =>
      rw [show input_from_resource from_addr asset_id (.coin c) =
        .ok { utxo_id := c.utxo_id, owner := from_addr, amount := c.amount,
              asset_id := asset_id, tx_pointer := 0, witness_index := 0,
              maturity := 0 } from rfl, okBind] at h
      cases hrest : rest.mapM (input_from_resource from_addr asset_id) with
      | error e => rw [hrest, errorBind] at h; exact absurd h (by simp)
      | ok bs =>
        rw [hrest, okBind] at h
        have hl := Except.ok.inj h
        obtain ⟨h1, h2, h3⟩ := ih bs hrest
        subst hl
        refine ⟨?_, ?_, ?_⟩
        · simp [h1, Resource.amount]
        · intro x hx
          rcases List.mem_cons.mp hx with hx | hx
          · subst hx; rfl
          · exact h2 x hx
        · simp [h3]

lemma transaction_input_coin_unfold (env : Env) (from_addr : Address)
    (asset_id : AssetId) (amount : Nat) (res : List Resource)
    (hres : env.get_spendable_resources from_addr asset_id amount = .ok res) :
    transaction_input_coin env from_addr asset_id amount =
      res.mapM (input_from_resource from_addr asset_id) := by
  rw [transaction_input_coin, hres]
  rfl

lemma transaction_input_coin_providerError (env : Env) (from_addr : Address)
    (asset_id : AssetId) (amount : Nat) (e : ProviderError)
    (hres : env.get_spendable_resources from_addr asset_id amount = .error e) :
    transaction_input_coin env from_addr asset_id amount =
      .error (Panic.providerErr e) := by
  rw [transaction_input_coin, hres]
  rfl

/-! ### Claim C7 -/

/-- C7: whenever the ledger's selection response contains a resource of a
kind other than a coin, `transaction_input_coin` fails with the
resource-kind panic (`panic!("Resource type does not match")`, the spec's
`UnsupportedResourceKind`) instead of producing inputs that would spend the
unknown resource. -/
theorem transaction_input_coin_rejects_non_coin (env : Env) (from_addr : Address)
    (asset_id : AssetId) (amount : Nat) (res : List Resource) (r : Resource)
    (hres : env.get_spendable_resources from_addr asset_id amount = .ok res)
    (hr : r ∈ res) (hnc : r.isCoin = false) :
    transaction_input_coin env from_addr asset_id amount =
      .error Panic.resourceTypeMismatch := by
  rw [transaction_input_coin_unfold env from_addr asset_id amount res hres]
  exact mapM_input_nonCoin from_addr asset_id res ⟨r, hr, hnc⟩

/-- C7 witness: `env2` answers the selection with a message resource. -/
theorem transaction_input_coin_rejects_non_coin_witness :
    env2.get_spendable_resources 0 0 5 = .ok [.message 5] ∧
    Resource.message 5 ∈ [Resource.message 5] ∧
    (Resource.message 5).isCoin = false ∧
    transaction_input_coin env2 0 0 5 = .error Panic.resourceTypeMismatch :=
  ⟨rfl, by decide, rfl,
   transaction_input_coin_rejects_non_coin env2 0 0 5 [.message 5] (.message 5)
     rfl (by decide) rfl⟩

/-! ### The shape of successful transaction assemblies -/

lemma tioLoop_nil (env : Env) (wallet : Address) (amounts : Option (List Nat))
    (idx : Nat) (acc1 : List Input) (acc2 : List Output) :
    tioLoop env wallet amounts [] idx acc1 acc2 =
      .ok { inputs := acc1, outputs := acc2 } := rfl

lemma tioLoop_cons_none (env : Env) (wallet : Address) (a : AssetId)
    (rest : List AssetId) (idx : Nat) (acc1 : List Input) (acc2 : List Output) :
    tioLoop env wallet none (a :: rest) idx acc1 acc2 =
      (transaction_input_coin env wallet a MAXIMUM_INPUT_AMOUNT) >>= fun new_inputs =>
        tioLoop env wallet none rest (idx + 1) (acc1 ++ new_inputs)
          (acc2 ++ [transaction_output_variable]) := by rfl

lemma tioLoop_cons_some_got (env : Env) (wallet : Address) (given : List Nat)
    (a : AssetId) (rest : List AssetId) (idx : Nat) (acc1 : List Input)
    (acc2 : List Output) (am : Nat) (hg : given[idx]? = some am) :
    tioLoop env wallet (some given) (a :: rest) idx acc1 acc2 =
      (transaction_input_coin env wallet a am) >>= fun new_inputs =>
        tioLoop env wallet (some given) rest (idx + 1) (acc1 ++ new_inputs)
          (acc2 ++ [transaction_output_variable]) := by
  simp only [tioLoop, hg]
  rfl

lemma tioLoop_cons_some_missing (env : Env) (wallet : Address) (given : List Nat)
    (a : AssetId) (rest : List AssetId) (idx : Nat) (acc1 : List Input)
    (acc2 : List Output) (hg : given[idx]? = none) :
    tioLoop env wallet (some given) (a :: rest) idx acc1 acc2 =
      .error Panic.unwrapNone := by
  simp only [tioLoop, hg]
  rfl

lemma tioLoop_cons_resolve (env : Env) (wallet : Address) (amounts : Option (List Nat))
    (a : AssetId) (rest : List AssetId) (idx : Nat) (acc1 : List Input)
    (acc2 : List Output) (tp : TransactionParameters)
    (h : tioLoop env wallet amounts (a :: rest) idx acc1 acc2 = .ok tp) :
    (transaction_input_coin env wallet a (requestedAmount amounts idx)) >>=
        (fun new_inputs => tioLoop env wallet amounts rest (idx + 1) (acc1 ++ new_inputs)
          (acc2 ++ [transaction_output_variable])) = .ok tp := by
  cases amounts with
  | none =>
    rw [show requestedAmount none idx = MAXIMUM_INPUT_AMOUNT from rfl,
      ← tioLoop_cons_none]
    exact h
  | some given =>
    cases hg : given[idx]? with
    | none =>
      rw [tioLoop_cons_some_missing env wallet given a rest idx acc1 acc2 hg] at h
      simp at h
    | some am =>
      rw [tioLoop_cons_some_got env wallet given a rest idx acc1 acc2 am hg] at h
      have ham : requestedAmount (some given) idx = am := by
        simp [requestedAmount, List.getD, hg]
      rw [ham]
      exact h

lemma tioLoop_ok_shape (env : Env) (wallet : Address) (amounts : Option (List Nat)) :
    ∀ (assets : List AssetId) (idx : Nat) (acc1 : List Input) (acc2 : List Output)
      (tp : TransactionParameters),
      tioLoop env wallet amounts assets idx acc1 acc2 = .ok tp →
      tp.outputs = acc2 ++ List.replicate assets.length transaction_output_variable ∧
      ∃ suffix, tp.inputs = acc1 ++ suffix := by
  intro assets
  induction assets with
  | nil =>
    intro idx acc1 acc2 tp h
    rw [tioLoop_nil] at h
    have h2 := Except.ok.inj h
    subst h2
    exact ⟨by simp, [], by simp⟩
  | cons a rest ih =>
    intro idx acc1 acc2 tp h
    have h2 := tioLoop_cons_resolve env wallet amounts a rest idx acc1 acc2 tp h
    cases htic : transaction_input_coin env wallet a (requestedAmount amounts idx) with
    | error e => rw [htic, errorBind] at h2; simp at h2
    | ok new_inputs =>
      rw [htic, okBind] at h2
      obtain ⟨ho, suffix, hs⟩ := ih (idx + 1) (acc1 ++ new_inputs)
        (acc2 ++ [transaction_output_variable]) tp h2
      refine ⟨?_, new_inputs ++ suffix, ?_⟩
      · rw [ho]
        simp [List.replicate_succ]
      · rw [hs]
        simp

/-! ### Claim C10 -/

/-- C10: every successful `transaction_inputs_outputs` run produces, as its
outputs, exactly one placeholder per element of the asset list (duplicates
included), and every placeholder is the same constant
`transaction_output_variable = Output::Variable { amount: 0, to:
Address::zeroed(), asset_id: AssetId::default() }` — it never references
the asset for which it was appended. -/
theorem transaction_outputs_constant (env : Env) (wallet : Address)
    (assets : List AssetId) (amounts : Option (List Nat))
    (tp : TransactionParameters)
    (hok : transaction_inputs_outputs env wallet assets amounts = .ok tp) :
    tp.outputs = List.replicate assets.length transaction_output_variable ∧
    transaction_output_variable = Output.Variable 0 Address.zeroed AssetId.default := by
  obtain ⟨ho, -⟩ := tioLoop_ok_shape env wallet amounts assets 0 [] [] tp hok
  exact ⟨by simpa using ho, rfl⟩

/-- A successful two-asset assembly with a duplicated asset, used as the
C10 witness. -/
def tpDup : TransactionParameters :=
  { inputs := [⟨3, 0, 1000000, 3, 0, 0, 0⟩, ⟨3, 0, 1000000, 3, 0, 0, 0⟩],
    outputs := [transaction_output_variable, transaction_output_variable] }

/-- C10 witness: a concrete successful run over the duplicated asset list
`[3, 3]`. -/
theorem transaction_outputs_constant_witness :
    transaction_inputs_outputs env0 0 [3, 3] none = .ok tpDup ∧
    (tpDup.outputs = List.replicate ([3, 3] : List AssetId).length
        transaction_output_variable ∧
     transaction_output_variable = Output.Variable 0 Address.zeroed AssetId.default) :=
  ⟨by decide, transaction_outputs_constant env0 0 [3, 3] none tpDup (by decide)⟩

/-! ### Per-asset input sums -/

lemma inputAmountFor_append (l1 l2 : List Input) (a : AssetId) :
    inputAmountFor (l1 ++ l2) a = inputAmountFor l1 a + inputAmountFor l2 a := by
  simp [inputAmountFor, List.filter_append]

lemma inputAmountFor_all (l : List Input) (a : AssetId)
    (h : ∀ x ∈ l, x.asset_id = a) :
    inputAmountFor l a = (l.map Input.amount).sum := by
  unfold inputAmountFor
  have hf : l.filter (fun inp => inp.asset_id == a) = l :=
    List.filter_eq_self.mpr (fun x hx => by simp [h x hx])
  rw [hf]

lemma tioLoop_strong (env : Env) (wallet : Address) (amounts : Option (List Nat))
    (hconf : SelectorConforms env wallet) :
    ∀ (assets : List AssetId) (idx : Nat) (acc1 : List Input) (acc2 : List Output)
      (tp : TransactionParameters),
      tioLoop env wallet amounts assets idx acc1 acc2 = .ok tp →
      (∀ j, j < assets.length → 1 ≤ requestedAmount amounts (idx + j)) →
      acc1.length + assets.length ≤ tp.inputs.length ∧
      ∀ j, j < assets.length →
        requestedAmount amounts (idx + j) ≤ inputAmountFor tp.inputs (assets.getD j 0) := by
  intro assets
  induction assets with
  | nil =>
    intro idx acc1 acc2 tp h _
    rw [tioLoop_nil] at h
    have h2 := Except.ok.inj h
    subst h2
    refine ⟨by simp, ?_⟩
    intro j hj
    exact absurd hj (by simp)
  | cons a rest ih =>
    intro idx acc1 acc2 tp h hpos
    have h2 := tioLoop_cons_resolve env wallet amounts a rest idx acc1 acc2 tp h
    cases htic : transaction_input_coin env wallet a (requestedAmount amounts idx) with
    | error e => rw [htic, errorBind] at h2; simp at h2
    | ok new_inputs =>
      rw [htic, okBind] at h2
      cases hget : env.get_spendable_resources wallet a (requestedAmount amounts idx) with
      | error e =>
        rw [transaction_input_coin_providerError env wallet a _ e hget] at htic
        simp at htic
      | ok res =>
        rw [transaction_input_coin_unfold env wallet a _ res hget] at htic
        obtain ⟨hmap, hall, hlen⟩ := mapM_input_ok wallet a res new_inputs htic
        have hsum : requestedAmount amounts idx ≤ (new_inputs.map Input.amount).sum := by
          rw [hmap]
          exact hconf a _ res hget
        have hpos0 : 1 ≤ requestedAmount amounts idx := by
          have := hpos 0 (by simp)
          simpa using this
        have hne : new_inputs ≠ [] := by
          intro hnil
          rw [hnil] at hsum
          simp at hsum
          omega
        have hlen1 : 1 ≤ new_inputs.length := List.length_pos.mpr hne
        have hposr : ∀ j, j < rest.length → 1 ≤ requestedAmount amounts (idx + 1 + j) := by
          intro j hj
          have := hpos (j + 1) (by simp [hj])
          rwa [show idx + (j + 1) = idx + 1 + j by omega] at this
        obtain ⟨hlen2, hsums⟩ := ih (idx + 1) (acc1 ++ new_inputs)
          (acc2 ++ [transaction_output_variable]) tp h2 hposr
        obtain ⟨-, suffix, hsuffix⟩ := tioLoop_ok_shape env wallet amounts rest (idx + 1)
          (acc1 ++ new_inputs) (acc2 ++ [transaction_output_variable]) tp h2
        constructor
        · rw [List.length_append] at hlen2
          simp only [List.length_cons]
          omega
        · intro j hj
          cases j with
          | zero =>
            rw [hsuffix, inputAmountFor_append, inputAmountFor_append]
            have heq : inputAmountFor new_inputs a = (new_inputs.map Input.amount).sum :=
              inputAmountFor_all new_inputs a hall
            simp only [List.getD_cons_zero, Nat.add_zero]
            omega
          | succ j =>
            have hjr : j < rest.length := by
              simp only [List.length_cons] at hj
              omega
            have hs := hsums j hjr
            rw [show idx + (j + 1) = idx + 1 + j by omega]
            simpa [List.getD_cons_succ] using hs

/-! ### Claim C4 -/

/-- C4 (amended): for every asset list, every amounts list (or none, giving
the default ceiling `MAXIMUM_INPUT_AMOUNT = 1_000_000`), every
spec-conforming selector and every successful run, the outputs number
exactly one per asset, and — provided every requested amount is positive,
which always holds for the default — the inputs number at least one per
asset and the inputs' per-asset sums cover each asset's request.  (Without
the positivity proviso the inputs clause fails: a conforming selector may
answer a zero request with the empty selection — see the counterexample.) -/
theorem transaction_inputs_outputs_shape (env : Env) (wallet : Address)
    (assets : List AssetId) (amounts : Option (List Nat))
    (tp : TransactionParameters)
    (hok : transaction_inputs_outputs env wallet assets amounts = .ok tp)
    (hconf : SelectorConforms env wallet)
    (hpos : ∀ j, j < assets.length → 1 ≤ requestedAmount amounts j) :
    tp.outputs.length = assets.length ∧
    assets.length ≤ tp.inputs.length ∧
    ∀ j, j < assets.length →
      requestedAmount amounts j ≤ inputAmountFor tp.inputs (assets.getD j 0) := by
  obtain ⟨ho, -⟩ := tioLoop_ok_shape env wallet amounts assets 0 [] [] tp hok
  obtain ⟨h1, h2⟩ := tioLoop_strong env wallet amounts hconf assets 0 [] [] tp hok
    (by intro j hj; simpa using hpos j hj)
  refine ⟨by simp [ho], by simpa using h1, ?_⟩
  intro j hj
  simpa using h2 j hj

lemma env0_conforms (wallet : Address) : SelectorConforms env0 wallet := by
  intro asset amount res h
  have h2 := Except.ok.inj h
  subst h2
  simp [resourceSum, Resource.amount]

lemma env3_conforms (wallet : Address) : SelectorConforms env3 wallet := by
  intro asset amount res h
  have h2 := Except.ok.inj h
  subst h2
  by_cases hz : amount = 0
  · subst hz; simp [resourceSum]
  · simp [resourceSum, Resource.amount, hz]

/-- The successful two-asset assembly used as the C4 witness. -/
def tpW : TransactionParameters :=
  { inputs := [⟨3, 0, 10, 3, 0, 0, 0⟩, ⟨4, 0, 20, 4, 0, 0, 0⟩],
    outputs := [transaction_output_variable, transaction_output_variable] }

/-- C4 witness: assets `[3, 4]` with amounts `[10, 20]` against the
conforming selector `env0`. -/
theorem transaction_inputs_outputs_shape_witness :
    transaction_inputs_outputs env0 0 [3, 4] (some [10, 20]) = .ok tpW ∧
    (∀ j, j < ([3, 4] : List AssetId).length →
      1 ≤ requestedAmount (some [10, 20]) j) ∧
    (tpW.outputs.length = ([3, 4] : List AssetId).length ∧
     ([3, 4] : List AssetId).length ≤ tpW.inputs.length ∧
     ∀ j, j < ([3, 4] : List AssetId).length →
       requestedAmount (some [10, 20]) j ≤
         inputAmountFor tpW.inputs ([3, 4].getD j 0)) :=
  ⟨by decide, by decide,
   transaction_inputs_outputs_shape env0 0 [3, 4] (some [10, 20]) tpW
     (by decide) (env0_conforms 0) (by decide)⟩

/-- C4 counterexample: against the conforming selector `env3`
(`env3_conforms`), which answers a zero-amount request with the empty —
sum-conforming — selection, assets `[0]` with amounts `[0]` produce a
transaction with one output but zero inputs: fewer than one input per
asset. -/
theorem transaction_inputs_outputs_zero_request_no_inputs :
    transaction_inputs_outputs env3 0 [0] (some [0]) =
      .ok { inputs := [], outputs := [transaction_output_variable] } ∧
    ¬ (([0] : List AssetId).length ≤ ([] : List Input).length) :=
  ⟨by decide, by decide⟩

/-! ### Claim C6 -/

lemma tioLoop_insufficient (env : Env) (wallet : Address) (amounts : Option (List Nat))
    (hcoins : ∀ a amt res, env.get_spendable_resources wallet a amt = .ok res →
      ∀ r ∈ res, r.isCoin = true) :
    ∀ (assets : List AssetId) (idx : Nat) (acc1 : List Input) (acc2 : List Output),
      (∀ given, amounts = some given → idx + assets.length ≤ given.length) →
      (∃ i, i < assets.length ∧
        env.get_spendable_resources wallet (assets.getD i 0)
          (requestedAmount amounts (idx + i)) = .error .insufficientFunds) →
      tioLoop env wallet amounts assets idx acc1 acc2 =
        .error (Panic.providerErr ProviderError.insufficientFunds) := by
  intro assets
  induction assets with
  | nil =>
    rintro idx acc1 acc2 _ ⟨i, hi, _⟩
    simp at hi
  | cons a rest ih =>
    rintro idx acc1 acc2 hlen ⟨i, hi, hfail⟩
    have hstep : tioLoop env wallet amounts (a :: rest) idx acc1 acc2 =
        (transaction_input_coin env wallet a (requestedAmount amounts idx)) >>=
          fun new_inputs => tioLoop env wallet amounts rest (idx + 1)
            (acc1 ++ new_inputs) (acc2 ++ [transaction_output_variable]) := by
      cases amounts with
      | none =>
        rw [show requestedAmount none idx = MAXIMUM_INPUT_AMOUNT from rfl]
        exact tioLoop_cons_none env wallet a rest idx acc1 acc2
      | some given =>
        have hlt : idx < given.length := by
          have := hlen given rfl
          simp only [List.length_cons] at this
          omega
        have hg : given[idx]? = some given[idx] := List.getElem?_eq_getElem hlt
        rw [show requestedAmount (some given) idx = given[idx] from by
          simp [requestedAmount, List.getD, hg]]
        exact tioLoop_cons_some_got env wallet given a rest idx acc1 acc2 _ hg
    rw [hstep]
    cases hget : env.get_spendable_resources wallet a (requestedAmount amounts idx) with
    | error e =>
      cases e
      rw [transaction_input_coin_providerError env wallet a _ _ hget, errorBind]
    | ok res =>
      obtain ⟨l, hl⟩ := mapM_input_allCoins wallet a res (hcoins a _ res hget)
      rw [transaction_input_coin_unfold env wallet a _ res hget, hl, okBind]
      apply ih (idx + 1)
      · intro given hgv
        have := hlen given hgv
        simp only [List.length_cons] at this
        omega
      · cases i with
        | zero =>
          rw [show (a :: rest).getD 0 0 = a from rfl, Nat.add_zero, hget] at hfail
          exact absurd hfail (by simp)
        | succ i =>
          refine ⟨i, ?_, ?_⟩
          · simp only [List.length_cons] at hi
            omega
          · rw [show idx + 1 + i = idx + (i + 1) by omega]
            simpa [List.getD_cons_succ] using hfail

/-- C6: if the provider's selections only ever contain coins and the
amounts list (when provided) covers the asset list, then as soon as the
wallet's funds are insufficient for some asset in the list — its selection
fails with `InsufficientFunds` — `transaction_inputs_outputs` fails with
exactly that error, and no `TransactionParameters` value (partial or
otherwise) is produced. -/
theorem transaction_inputs_outputs_insufficient (env : Env) (wallet : Address)
    (assets : List AssetId) (amounts : Option (List Nat))
    (hcoins : ∀ a amt res, env.get_spendable_resources wallet a amt = .ok res →
      ∀ r ∈ res, r.isCoin = true)
    (hlen : ∀ given, amounts = some given → assets.length ≤ given.length)
    (hfail : ∃ i, i < assets.length ∧
      env.get_spendable_resources wallet (assets.getD i 0)
        (requestedAmount amounts i) = .error .insufficientFunds) :
    transaction_inputs_outputs env wallet assets amounts =
      .error (Panic.providerErr ProviderError.insufficientFunds) ∧
    ∀ tp, transaction_inputs_outputs env wallet assets amounts ≠ .ok tp := by
  have h := tioLoop_insufficient env wallet amounts hcoins assets 0 [] []
    (by intro given hg; simpa using hlen given hg)
    (by obtain ⟨i, hi, hf⟩ := hfail; exact ⟨i, hi, by simpa using hf⟩)
  exact ⟨h, fun tp htp => Except.noConfusion (h.symm.trans htp)⟩

/-- C6 witness: `env1` (a wallet with no funds) fails the single-asset
assembly with `InsufficientFunds`. -/
theorem transaction_inputs_outputs_insufficient_witness :
    env1.get_spendable_resources 0 ([7].getD 0 0) (requestedAmount none 0) =
      .error .insufficientFunds ∧
    transaction_inputs_outputs env1 0 [7] none =
      .error (Panic.providerErr ProviderError.insufficientFunds) :=
  ⟨rfl,
   (transaction_inputs_outputs_insufficient env1 0 [7] none
     (fun _ _ _ h => Except.noConfusion h)
     (fun given hg => Option.noConfusion hg)
     ⟨0, by decide, rfl⟩).1⟩

end AmmSetup
